import Mathlib

/-!
Shallow embedding of `scanner_v4_web_ready.py` (SwingScan Pro V9.1).

Conventions of the embedding:
* pandas float cells are `Val := Option ℚ`, with `none` playing the role of
  NaN (IEEE comparisons against NaN are false, arithmetic propagates NaN).
  `x / 0` (IEEE `inf`/`NaN`) is also modelled as `none`; no result below
  exercises a zero divisor.
* a pandas `Series` is a list of cells, indexed by integer position; the
  index-label alignment of pandas coincides with positional alignment for
  the equal-length daily histories the scanner works on.
* a raised Python exception is an `Except.error`; code that catches it
  (`try`/`except`) turns the error into the handler's result.
* Python float literals `0.99`, `2.0`, `1.5` are taken at their decimal
  value; no comparison below sits exactly on the rounding error of `0.99`.
* the indicator provider (`pandas_ta`) is an external library boundary:
  `sma`/`rsi`/`atr` are embedded following pandas' rolling-mean and
  ewm-with-adjust semantics (`rma(x, n) = x.ewm(alpha=1/n, min_periods=n).mean()`),
  including `verify_series` returning `None` on too-short input.
-/

set_option maxRecDepth 10000

namespace SwingScan

/-- A float cell of a pandas series: `none` models NaN (missing value). -/
abbrev Val := Option ℚ

/-- A pandas series of floats, indexed by integer position. -/
abbrev Series := List Val

/-- IEEE-style `a > b`: false whenever either side is NaN. -/
def vgt : Val → Val → Bool
  | some a, some b => decide (b < a)
  | _, _ => false

/-- IEEE-style `a < b`: false whenever either side is NaN. -/
def vlt (a b : Val) : Bool := vgt b a

/-- IEEE-style `a >= b`: false whenever either side is NaN. -/
def vge : Val → Val → Bool
  | some a, some b => decide (b ≤ a)
  | _, _ => false

/-- NaN-propagating subtraction. -/
def vsub : Val → Val → Val
  | some a, some b => some (a - b)
  | _, _ => none

/-- NaN-propagating addition. -/
def vadd : Val → Val → Val
  | some a, some b => some (a + b)
  | _, _ => none

/-- NaN-propagating multiplication by a scalar literal. -/
def vmulc : Val → ℚ → Val
  | some a, c => some (a * c)
  | none, _ => none

/-- Python's `lst[-n:]` (the last `n` elements; the whole list when shorter). -/
def takeLast (n : Nat) (l : List α) : List α := l.drop (l.length - n)

/-- pandas `Series.max()`: NaN entries skipped; empty/all-NaN gives NaN. -/
def seriesMax (s : Series) : Val :=
  match s.filterMap id with
  | [] => none
  | x :: xs => some (xs.foldl max x)

/-- pandas `Series.min()`: NaN entries skipped; empty/all-NaN gives NaN. -/
def seriesMin (s : Series) : Val :=
  match s.filterMap id with
  | [] => none
  | x :: xs => some (xs.foldl min x)

/-- pandas `s.rolling(n, min_periods=n).mean()`: cell `i` is the mean of the
window `s[i-n+1..i]`, NaN while the window is incomplete or contains NaN. -/
def smaCore (n : Nat) (s : Series) : Series :=
  (List.range s.length).map fun i =>
    if i + 1 < n then none
    else
      let w := (s.take (i + 1)).drop (i + 1 - n)
      if w.all Option.isSome then some (((w.filterMap id).sum) / n) else none

/-- `pandas_ta.sma(close, length=n)`: `verify_series` yields `None` when the
series is shorter than `n` (so `.iloc[-1]` on the result then raises). -/
def ta_sma (n : Nat) (s : Series) : Option Series :=
  if s.length < n then none else some (smaCore n s)

/-- Element-wise division of two series (pandas `s1 / s2`), positional
alignment, missing positions and zero divisors giving NaN. -/
def seriesDiv (a b : Series) : Series :=
  (List.range (max a.length b.length)).map fun i =>
    match a.getD i none, b.getD i none with
    | some x, some y => if y = 0 then none else some (x / y)
    | _, _ => none

/-- `s.iloc[-1]`: raises `IndexError` on an empty series. -/
def ilocLast (s : Series) : Except Unit Val :=
  match s.getLast? with
  | some v => .ok v
  | none => .error ()

/-- `s.iloc[-n]` for `n ≥ 1`: raises `IndexError` when the series is shorter
than `n`. -/
def ilocNeg (s : Series) (n : Nat) : Except Unit Val :=
  if 1 ≤ n ∧ n ≤ s.length then .ok (s.getD (s.length - n) none) else .error ()

/-- `AttributeError` on using a `None` return of an indicator. -/
def liftOpt : Option α → Except Unit α
  | some a => .ok a
  | none => .error ()

/-- The dataframe handed to the scoring engine: OHLCV columns plus the
`MA50`/`MA200` columns the caller attached. -/
structure ScoreDF where
  close : Series
  high : Series
  low : Series
  volume : Series
  ma50 : Series
  ma200 : Series
deriving DecidableEq

/-- `calculate_confluence_score(df, spy_data)` (lines 53-89): base 10,
+40 for `close > MA20 > MA50 > MA200`, +30 for 20-bar range exceeding the
10-bar range, +20 for the RS line above its value 60 bars back; any raised
exception gives 0; otherwise `int(min(max(score, 1), 100))`. -/
def calculate_confluence_score (df : ScoreDF) (spyClose : Series) : Int :=
  let body : Except Unit Nat := do
    -- ma20 = ta.sma(s_close, length=20).iloc[-1]
    let ma20 ← ilocLast (← liftOpt (ta_sma 20 df.close))
    let ma50 ← ilocLast df.ma50
    let ma200 ← ilocLast df.ma200
    -- if s_close.iloc[-1] > ma20 > ma50 > ma200: score += 40
    let lastClose ← ilocLast df.close
    let s1 : Nat := if vgt lastClose ma20 && vgt ma20 ma50 && vgt ma50 ma200 then 10 + 40 else 10
    -- r20 / r10 ranges; NaN comparisons are false, never raising
    let r20 := vsub (seriesMax (takeLast 20 df.high)) (seriesMin (takeLast 20 df.low))
    let r10 := vsub (seriesMax (takeLast 10 df.high)) (seriesMin (takeLast 10 df.low))
    let s2 : Nat := if vgt r20 r10 then s1 + 30 else s1
    -- rs_line = s_close / m_close ; compare iloc[-1] with iloc[-60]
    let rs := seriesDiv df.close spyClose
    let rsLast ← ilocNeg rs 1
    let rsPrev ← ilocNeg rs 60
    let s3 : Nat := if vgt rsLast rsPrev then s2 + 20 else s2
    pure s3
  match body with
  | .error _ => 0
  | .ok s => min (max (s : Int) 1) 100

/-- One record of `trade_memory.json`'s `history` array. -/
structure LedgerEntry where
  ticker : String
  entry_price : Val
  goal : Val
  stop : Val
  date : String
  status : String
deriving DecidableEq

/-- `update_and_get_bias()` (lines 25-50) on a readable, well-formed ledger:
fewer than 3 resolved entries give bias 0; otherwise win-rate bands
`< 45 → 10`, `> 65 → -5`, else 0. -/
def update_and_get_bias (history : List LedgerEntry) : Int :=
  let closed_trades := history.filter fun t => t.status ≠ "open"
  if closed_trades.length < 3 then 0
  else
    let wins := (closed_trades.filter fun t => t.status = "win").length
    let win_rate : ℚ := ((wins : ℚ) / (closed_trades.length : ℚ)) * 100
    if win_rate < 45 then 10
    else if win_rate > 65 then -5
    else 0

/-- The memory file at cycle start: `none` when missing or unreadable
(both make `update_and_get_bias` return 0). -/
def update_and_get_bias_file : Option (List LedgerEntry) → Int
  | none => 0
  | some h => update_and_get_bias h

/-- pandas `s.diff(1)`: NaN at position 0, `s[i] - s[i-1]` after (NaN when a
neighbour is NaN). -/
def sdiff (s : Series) : Series :=
  match s with
  | [] => []
  | _ :: t => none :: t.zipWith vsub s

/-- Running weighted sums of `pre` for `ewm(alpha, adjust=True, ignore_na=False)`:
numerator, denominator (weights `(1-alpha)^(pos_last - pos_i)` over non-NaN
cells) and the count of non-NaN observations. -/
def ewmStats (alpha : ℚ) (pre : Series) : ℚ × ℚ × Nat :=
  pre.foldl
    (fun acc v =>
      match v with
      | none => (acc.1 * (1 - alpha), acc.2.1 * (1 - alpha), acc.2.2)
      | some x => (acc.1 * (1 - alpha) + x, acc.2.1 * (1 - alpha) + 1, acc.2.2 + 1))
    (0, 0, 0)

/-- `pandas_ta.rma(x, n) = x.ewm(alpha=1/n, min_periods=n).mean()`:
cell `t` is the adjusted exponentially weighted mean of the non-NaN cells up
to `t`, NaN while fewer than `n` observations have been seen. -/
def rma (n : Nat) (s : Series) : Series :=
  (List.range s.length).map fun t =>
    let st := ewmStats (1 / (n : ℚ)) (s.take (t + 1))
    if st.2.2 < n ∨ st.2.1 = 0 then none else some (st.1 / st.2.1)

/-- `pandas_ta.rsi(close, length=n)` (mode `rma`, drift 1):
`100 * rma(gains) / (rma(gains) + rma(losses).abs())`, NaN when either
average is NaN or their sum is 0. -/
def rsiCore (n : Nat) (closeS : Series) : Series :=
  let d := sdiff closeS
  let pos := d.map (Option.map fun x => if x < 0 then 0 else x)
  let neg := d.map (Option.map fun x => if x > 0 then 0 else x)
  let pavg := rma n pos
  let navg := (rma n neg).map (Option.map abs)
  (List.range closeS.length).map fun i =>
    match pavg.getD i none, navg.getD i none with
    | some p, some q => if p + q = 0 then none else some (100 * p / (p + q))
    | _, _ => none

/-- One OHLCV row of a yfinance download (the columns the scanner uses). -/
structure Bar where
  high : Val
  low : Val
  close : Val
  volume : Val
deriving DecidableEq, Inhabited

/-- The dataframe returned by `yf.download`. -/
abbrev RawDF := List Bar

/-- `pandas_ta.true_range` (drift 1): row-wise max, skipping NaN, of
`high - low`, `|high - prev_close|`, `|prev_close - low|`; the first row is
forced to NaN. -/
def trueRange (data : RawDF) : Series :=
  (List.range data.length).map fun i =>
    if i = 0 then none
    else
      let b := data.getD i default
      let pc := (data.getD (i - 1) default).close
      let c1 : Val := match b.high, b.low with
        | some h, some l => some (h - l)
        | _, _ => none
      let c2 : Val := match b.high, pc with
        | some h, some p => some |h - p|
        | _, _ => none
      let c3 : Val := match pc, b.low with
        | some p, some l => some |p - l|
        | _, _ => none
      seriesMax [c1, c2, c3]

/-- `pandas_ta.atr(high, low, close, length=n)` in its default `rma` mode. -/
def atrCore (n : Nat) (data : RawDF) : Series := rma n (trueRange data)

/-- Round an integer-scaled value to the nearest integer, ties to even
(Python's `round`). -/
def roundHalfEven (q : ℚ) : ℤ :=
  let f := Int.floor q
  let r := q - f
  if r < 1 / 2 then f
  else if r > 1 / 2 then f + 1
  else if f % 2 = 0 then f else f + 1

/-- Python `round(x, 2)` on the decimal value of `x`. -/
def round2 (q : ℚ) : ℚ := (roundHalfEven (q * 100) : ℚ) / 100

/-- `round` of NaN is NaN. -/
def vround2 : Val → Val := Option.map round2

/-- One record of the emitted `signals` array (lines 199-208). -/
structure Signal where
  ticker : String
  score : Int
  pattern : String
  currentPrice : Val
  buyAt : Val
  goal : Val
  stopLoss : Val
  rsi : Val
deriving DecidableEq

/-- `BASE_STRICTNESS` (line 22). -/
def BASE_STRICTNESS : Int := 80

/-- `record_new_trades(new_signals)` (lines 114-144) as a map from the
ledger state read from disk to the ledger state written back: no change on
an empty signal list or when an open entry for the top pick's ticker
already exists; otherwise append the top pick as an `open` entry and keep
`history[-50:]`. -/
def record_new_trades (memory : List LedgerEntry) (new_signals : List Signal)
    (today : String) : List LedgerEntry :=
  match new_signals with
  | [] => memory
  | top :: _ =>
    if memory.any (fun t => t.ticker = top.ticker && t.status = "open") then memory
    else
      takeLast 50 (memory ++
        [{ ticker := top.ticker, entry_price := top.currentPrice, goal := top.goal,
           stop := top.stopLoss, date := today, status := "open" }])

/-- The body of the per-ticker loop of `run_web_scan` (lines 164-209): the
`try`/`except: continue` makes every raised exception, the `continue` for
missing/short data and every failed gate produce `none`; a passing ticker
produces its signal record.  The fetch argument carries a possible
`yf.download` failure.  After the `len(data) >= 200` guard none of the
indicator calls can raise (`verify_series` needs only 14/20/50/200 rows) and
none of the `.iloc[-1]` lookups sees an empty series; NaN cells flow through
the comparisons as `false`. -/
def evalTicker (m_healthy : Bool) (threshold : Int) (spyClose : Series)
    (ticker : String) (fetch : Except Unit RawDF) : Option Signal :=
  match fetch with
  | .error _ => none
  | .ok data =>
    if data.isEmpty || data.length < 200 then none
    else
      let closeS := data.map (·.close)
      let highS := data.map (·.high)
      let lowS := data.map (·.low)
      let volS := data.map (·.volume)
      let ma50S := smaCore 50 closeS
      let ma200S := smaCore 200 closeS
      let atrS := atrCore 14 data
      let rsiS := rsiCore 14 closeS
      match closeS.getLast?, atrS.getLast?, rsiS.getLast?, ma50S.getLast?, ma200S.getLast? with
      | some close, some atrv, some rsiv, some ma50v, some ma200v =>
        let recent_high := seriesMax (takeLast 20 highS)
        -- close > MA50 > MA200 and m_healthy and 45 < rsi < 65
        if vgt close ma50v && vgt ma50v ma200v && m_healthy
            && vgt rsiv (some 45) && vlt rsiv (some 65) then
          -- close >= recent_high * 0.99
          if vge close (vmulc recent_high (99 / 100)) then
            let score := calculate_confluence_score
              ⟨closeS, highS, lowS, volS, ma50S, ma200S⟩ spyClose
            if threshold ≤ score then
              some { ticker := ticker, score := score, pattern := "Conservative VCP",
                     currentPrice := vround2 close, buyAt := vround2 recent_high,
                     goal := vround2 (vadd close (vmulc atrv 2)),
                     stopLoss := vround2 (vsub close (vmulc atrv (3 / 2))),
                     rsi := vround2 rsiv }
            else none
          else none
        else none
      | _, _, _, _, _ => none

/-- The accumulated signal list of the per-ticker loop, in ticker
encounter order. -/
def collectSignals (m_healthy : Bool) (threshold : Int) (spyClose : Series) :
    List (String × Except Unit RawDF) → List Signal
  | [] => []
  | (t, f) :: rest =>
    match evalTicker m_healthy threshold spyClose t f with
    | some s => s :: collectSignals m_healthy threshold spyClose rest
    | none => collectSignals m_healthy threshold spyClose rest

/-- Decidable equality for a possibly-raising computation's result. -/
instance {ε α : Type} [DecidableEq ε] [DecidableEq α] : DecidableEq (Except ε α) := fun a b =>
  match a, b with
  | .error e, .error f =>
    if h : e = f then isTrue (by rw [h]) else isFalse (by intro hc; cases hc; exact h rfl)
  | .ok x, .ok y =>
    if h : x = y then isTrue (by rw [h]) else isFalse (by intro hc; cases hc; exact h rfl)
  | .error _, .ok _ => isFalse (by intro hc; cases hc)
  | .ok _, .error _ => isFalse (by intro hc; cases hc)

/-- The frozen external world of one scan cycle: the memory file, the SPY
download, and each ticker's download in universe order. -/
structure ScanInput where
  ledger : Option (List LedgerEntry)
  spy : RawDF
  tickers : List (String × Except Unit RawDF)
deriving DecidableEq

/-- The `output_data` snapshot written to `public/signals.json`. -/
structure ScanOutput where
  marketHealthy : Bool
  signals : List Signal
  lastUpdated : String
deriving DecidableEq

/-- The comparison `sorted(signals, key=lambda x: x['score'], reverse=True)`
sorts by: `a` may precede `b` when `b`'s score does not exceed `a`'s. -/
def scoreLe (a b : Signal) : Bool := b.score ≤ a.score

/-- `run_web_scan()` (lines 146-228) as a map from the frozen cycle input
and the wall-clock string to the output snapshot.  The market-health line
sits outside any `try`: an empty or sub-200-bar SPY history raises
(`IndexError`, or `AttributeError` on `ta.sma(...) = None`) and aborts the
cycle, modelled as `Except.error`.  `sorted(signals, key=score, reverse=True)`
is Python's stable descending sort, `List.mergeSort` with `b.score ≤ a.score`.
The `record_new_trades` call only writes the memory file and does not touch
the snapshot. -/
def run_web_scan (inp : ScanInput) (now : String) : Except Unit ScanOutput :=
  let bias := update_and_get_bias_file inp.ledger
  let current_threshold := BASE_STRICTNESS + bias
  let spyClose := inp.spy.map (·.close)
  match ta_sma 200 spyClose with
  | none => .error ()
  | some sma200S =>
    match spyClose.getLast?, sma200S.getLast? with
    | some lastSpy, some smaLast =>
      let m_healthy := vgt lastSpy smaLast
      let raw := collectSignals m_healthy current_threshold spyClose inp.tickers
      let signals := raw.mergeSort scoreLe
      .ok { marketHealthy := m_healthy, signals := signals, lastUpdated := now }
    | _, _ => .error ()

/-! ### Concrete cycle inputs used by the witnesses and counterexamples -/

/-- A steadily rising instrument: closes alternate `+3` / `-2` (net uptrend,
mixed gains keeping RSI mid-band), highs at the closes, lows 5 below the
close until bar 209 and 1 below afterwards (a contracting range). -/
def mkBarB (i : Nat) : Bar :=
  let k := i / 2
  let c : ℚ := if i % 2 = 0 then 100 + k else 103 + k
  { high := some c, low := some (c - (if i < 210 then 5 else 1)),
    close := some c, volume := some 1000 }

/-- 220 bars of the rising instrument; its last close equals its 20-bar
high, so the 1% pivot test passes. -/
def dataB : RawDF := (List.range 220).map mkBarB

/-- The same instrument with a single intraday spike to 215 on bar 215: the
last close 212 is within 2% of the 20-bar high 215 but not within 1%. -/
def dataA : RawDF :=
  (List.range 220).map fun i =>
    if i = 215 then
      let b := mkBarB i
      { b with high := some 215 }
    else mkBarB i

/-- A rising benchmark: 220 bars of close `100 + i`, so the last close 319
is above the 200-bar mean 219.5 (healthy market). -/
def spyRise : RawDF :=
  (List.range 220).map fun i =>
    { high := some (100 + i), low := some (100 + i),
      close := some (100 + (i : ℚ)), volume := some 1000 }

/-- A flat benchmark: 220 bars of constant close 100, so the last close is
not above the 200-bar mean (unhealthy market). -/
def spyFlat : RawDF :=
  (List.range 220).map fun _ =>
    { high := some 100, low := some 100, close := some 100, volume := some 1000 }

/-- Cycle input whose single ticker passes every gate. -/
def inpB : ScanInput := ⟨none, spyRise, [("AAA", .ok dataB)]⟩

/-- Cycle input whose single ticker fails only the 1% pivot-proximity test,
while staying within 2% of its 20-bar high. -/
def inpA : ScanInput := ⟨none, spyRise, [("AAA", .ok dataA)]⟩

/-- Cycle input with two tickers that earn the same score. -/
def inpB2 : ScanInput := ⟨none, spyRise, [("AAA", .ok dataB), ("BBB", .ok dataB)]⟩

/-- Cycle input with a healthy ticker under an unhealthy market. -/
def inpFlat : ScanInput := ⟨none, spyFlat, [("AAA", .ok dataB)]⟩

/-- The signal `run_web_scan` emits for `dataB` under `spyRise`. -/
def sigB : Signal :=
  { ticker := "AAA", score := 80, pattern := "Conservative VCP",
    currentPrice := some 212, buyAt := some 212,
    goal := some (11041 / 50), stopLoss := some (10269 / 50),
    rsi := some (1544 / 25) }

/-- An all-empty dataframe: every indicator lookup inside the scorer raises. -/
def dfEmpty : ScoreDF := ⟨[], [], [], [], [], []⟩

/-- Spec scenario B, 60 bars: closes 100 then 110 (last close 110, 20-bar
mean 105), `MA50` column at 100, `MA200` column at 90, flat highs/lows (no
range contraction), benchmark constant (positive relative strength). -/
def closesB : Series := (List.range 60).map fun i => some (if i < 50 then 100 else 110)

/-- Scenario B with the current bar's volume at the trailing average. -/
def dfB_lo : ScoreDF :=
  ⟨closesB, List.replicate 60 (some 111), List.replicate 60 (some 99),
   List.replicate 60 (some 1000), List.replicate 60 (some 100),
   List.replicate 60 (some 90)⟩

/-- Scenario B with the current bar's volume at three times the trailing
average — the only column that differs from `dfB_lo`. -/
def dfB_hi : ScoreDF :=
  { dfB_lo with volume := List.replicate 59 (some 1000) ++ [some 3000] }

/-- Scenario B's benchmark close series. -/
def spyCloseB : Series := List.replicate 60 (some 100)

/-- A resolved (non-open) ledger entry with the given status. -/
def mkStatus (s : String) : LedgerEntry := ⟨"T", some 1, some 2, some 0, "d", s⟩

/-- Five resolved trades with two wins: win rate 40%. -/
def hist5 : List LedgerEntry :=
  [mkStatus "win", mkStatus "win", mkStatus "loss", mkStatus "loss", mkStatus "loss"]

/-- Twenty resolved trades with nine wins: win rate exactly 45%. -/
def hist20 : List LedgerEntry :=
  List.replicate 9 (mkStatus "win") ++ List.replicate 11 (mkStatus "loss")

/-- Twenty resolved trades with thirteen wins: win rate exactly 65%. -/
def hist20hi : List LedgerEntry :=
  List.replicate 13 (mkStatus "win") ++ List.replicate 7 (mkStatus "loss")

/-- A ledger already holding 52 resolved entries. -/
def memory52 : List LedgerEntry := List.replicate 52 (mkStatus "win")

/-- The signal `run_web_scan` emits for the second `dataB` ticker. -/
def sigB2 : Signal := { sigB with ticker := "BBB" }

/-- The snapshot of the `inpB` cycle. -/
def outB : ScanOutput := ⟨true, [sigB], "T"⟩

/-- The snapshot of the `inpB2` cycle. -/
def outB2 : ScanOutput := ⟨true, [sigB, sigB2], "T"⟩

/-- The snapshot of the `inpA` cycle. -/
def outA : ScanOutput := ⟨true, [], "T"⟩

/-! ### Pipeline inversion lemmas -/

/-- A successful scan's snapshot is the stable descending sort of the
per-ticker loop's signal list, stamped with the given clock string. -/
theorem run_web_scan_ok {inp : ScanInput} {now : String} {out : ScanOutput}
    (h : run_web_scan inp now = .ok out) :
    ∃ mh : Bool,
      out = ⟨mh,
        (collectSignals mh (BASE_STRICTNESS + update_and_get_bias_file inp.ledger)
            (inp.spy.map (·.close)) inp.tickers).mergeSort scoreLe,
        now⟩ := by
  simp only [run_web_scan] at h
  split at h
  · cases h
  · split at h
    · exact ⟨_, (Except.ok.inj h).symm⟩
    · cases h

/-- With an unhealthy market the per-ticker gate can never pass. -/
theorem evalTicker_false (thr : Int) (spyC : Series) (t : String)
    (f : Except Unit RawDF) : evalTicker false thr spyC t f = none := by
  cases f with
  | error e => rfl
  | ok data =>
    simp only [evalTicker]
    split
    · rfl
    · split
      · simp
      · rfl

/-- With an unhealthy market the per-ticker loop collects nothing. -/
theorem collectSignals_false (thr : Int) (spyC : Series) :
    ∀ ts : List (String × Except Unit RawDF), collectSignals false thr spyC ts = [] := by
  intro ts
  induction ts with
  | nil => rfl
  | cons p rest ih =>
    obtain ⟨t, f⟩ := p
    simp only [collectSignals, evalTicker_false, ih]

/-- A ticker whose evaluation yields nothing can be dropped from the
universe without changing the collected signals. -/
theorem collectSignals_middle_none {mh : Bool} {thr : Int} {spyC : Series}
    {t : String} {f : Except Unit RawDF}
    (hnone : evalTicker mh thr spyC t f = none) :
    ∀ pre post, collectSignals mh thr spyC (pre ++ (t, f) :: post)
      = collectSignals mh thr spyC (pre ++ post) := by
  intro pre
  induction pre with
  | nil => intro post; simp only [List.nil_append, collectSignals, hnone]
  | cons p rest ih =>
    intro post
    obtain ⟨a, b⟩ := p
    simp only [List.cons_append, collectSignals]
    cases hev : evalTicker mh thr spyC a b with
    | none => simp only [hev]; exact ih post
    | some s' => simp only [hev]; exact congrArg (s' :: ·) (ih post)

/-- Every collected signal comes from some ticker of the universe whose
evaluation emitted it. -/
theorem mem_collectSignals {mh : Bool} {thr : Int} {spyC : Series} {s : Signal} :
    ∀ {ts : List (String × Except Unit RawDF)}, s ∈ collectSignals mh thr spyC ts →
      ∃ t f, (t, f) ∈ ts ∧ evalTicker mh thr spyC t f = some s := by
  intro ts
  induction ts with
  | nil => intro h; cases h
  | cons p rest ih =>
    obtain ⟨t, f⟩ := p
    simp only [collectSignals]
    cases hev : evalTicker mh thr spyC t f with
    | none =>
      intro h
      obtain ⟨t', f', h1, h2⟩ := ih h
      exact ⟨t', f', List.mem_cons_of_mem _ h1, h2⟩
    | some s' =>
      intro h
      rcases List.mem_cons.mp h with rfl | h'
      · exact ⟨t, f, List.mem_cons_self _ _, hev⟩
      · obtain ⟨t', f', h1, h2⟩ := ih h'
        exact ⟨t', f', List.mem_cons_of_mem _ h1, h2⟩

/-- A strict NaN-aware comparison against a number pins the left cell. -/
theorem vgt_some_right {v : Val} {q : ℚ} (h : vgt v (some q) = true) :
    ∃ r : ℚ, v = some r ∧ q < r := by
  cases v with
  | none => cases h
  | some r => exact ⟨r, rfl, of_decide_eq_true h⟩

/-- Everything the per-ticker loop guarantees about an emitted signal:
where it came from, the gates it passed, and how its fields were built. -/
theorem evalTicker_eq_some {mh : Bool} {thr : Int} {spyC : Series} {t : String}
    {f : Except Unit RawDF} {s : Signal}
    (h : evalTicker mh thr spyC t f = some s) :
    ∃ data : RawDF,
      f = .ok data ∧ 200 ≤ data.length ∧ mh = true ∧
      ∃ close rsiv : Val,
        (data.map (·.close)).getLast? = some close ∧
        (rsiCore 14 (data.map (·.close))).getLast? = some rsiv ∧
        vgt rsiv (some 45) = true ∧ vlt rsiv (some 65) = true ∧
        vge close (vmulc (seriesMax (takeLast 20 (data.map (·.high)))) (99 / 100)) = true ∧
        thr ≤ s.score ∧
        s.ticker = t ∧
        s.score = calculate_confluence_score
          ⟨data.map (·.close), data.map (·.high), data.map (·.low), data.map (·.volume),
           smaCore 50 (data.map (·.close)), smaCore 200 (data.map (·.close))⟩ spyC ∧
        s.currentPrice = vround2 close ∧
        s.buyAt = vround2 (seriesMax (takeLast 20 (data.map (·.high)))) ∧
        s.rsi = vround2 rsiv := by
  cases f with
  | error e => cases h
  | ok data =>
    simp only [evalTicker] at h
    refine ⟨data, rfl, ?_⟩
    split at h
    · cases h
    · next hshort =>
      have hlen : 200 ≤ data.length := by
        simp only [Bool.or_eq_true, decide_eq_true_eq, not_or] at hshort
        omega
      refine ⟨hlen, ?_⟩
      split at h
      · next close atrv rsiv ma50v ma200v hclose hatr hrsi hma50 hma200 =>
        split at h
        · next hgate =>
          split at h
          · next hprox =>
            split at h
            · next hthr =>
              obtain rfl := (Option.some.inj h).symm
              simp only [Bool.and_eq_true] at hgate
              obtain ⟨⟨⟨⟨hg1, hg2⟩, hg3⟩, hg4⟩, hg5⟩ := hgate
              exact ⟨hg3, close, rsiv, hclose, hrsi, hg4, hg5, hprox, hthr,
                rfl, rfl, rfl, rfl, rfl⟩
            · cases h
          · cases h
        · cases h
      · cases h

/-! ### C1 — scorer output range -/

/-- C1 counterexample: on the all-empty input the first indicator lookup
raises, the handler returns the fallback 0, and 0 lies outside `[1, 100]` —
so the scorer does not return a value in `[1, 100]` for every input. -/
theorem c1_counterexample :
    calculate_confluence_score dfEmpty [] = 0 ∧
    ¬ (1 ≤ calculate_confluence_score dfEmpty []) := by decide

/-- Case split on the clamp applied to the scorer's `try` body. -/
theorem clamp_mem (e : Except Unit Nat) :
    (match e with
      | .error _ => (0 : Int)
      | .ok s => min (max (s : Int) 1) 100) = 0 ∨
    (1 ≤ (match e with
      | .error _ => (0 : Int)
      | .ok s => min (max (s : Int) 1) 100) ∧
     (match e with
      | .error _ => (0 : Int)
      | .ok s => min (max (s : Int) 1) 100) ≤ 100) := by
  cases e with
  | error u => left; rfl
  | ok s =>
    right
    refine ⟨le_min (le_max_right _ _) (by norm_num), min_le_right _ _⟩

/-- C1 amended: `calculate_confluence_score` never raises; it returns the
fallback 0 when an internal computation raises and otherwise an integer in
`[1, 100]`. -/
theorem c1_amended_range (df : ScoreDF) (spyClose : Series) :
    calculate_confluence_score df spyClose = 0 ∨
    (1 ≤ calculate_confluence_score df spyClose ∧
      calculate_confluence_score df spyClose ≤ 100) := by
  simp only [calculate_confluence_score]
  exact clamp_mem _

/-- C1 amended witness: on the all-empty input the scorer returns 0. -/
theorem c1_amended_witness :
    calculate_confluence_score dfEmpty [] = 0 :=
  (c1_amended_range dfEmpty []).resolve_right (by decide)

/-! ### C2 — adaptive threshold controller -/

/-- C2: with fewer than 3 resolved entries the bias is 0; with at least 3,
the bias is +10 below a 45% win rate, −5 above 65%, and 0 in the closed
band `[45, 65]` — in particular at exactly 45% and exactly 65%. -/
theorem c2_bias_bands (history : List LedgerEntry) :
    ((history.filter fun t => t.status ≠ "open").length < 3 →
      update_and_get_bias history = 0) ∧
    (3 ≤ (history.filter fun t => t.status ≠ "open").length →
      ((((history.filter fun t => t.status ≠ "open").filter
            fun t => t.status = "win").length : ℚ) /
          ((history.filter fun t => t.status ≠ "open").length : ℚ) * 100 < 45 →
        update_and_get_bias history = 10) ∧
      (45 ≤ (((history.filter fun t => t.status ≠ "open").filter
            fun t => t.status = "win").length : ℚ) /
          ((history.filter fun t => t.status ≠ "open").length : ℚ) * 100 ∧
        (((history.filter fun t => t.status ≠ "open").filter
            fun t => t.status = "win").length : ℚ) /
          ((history.filter fun t => t.status ≠ "open").length : ℚ) * 100 ≤ 65 →
        update_and_get_bias history = 0) ∧
      (65 < (((history.filter fun t => t.status ≠ "open").filter
            fun t => t.status = "win").length : ℚ) /
          ((history.filter fun t => t.status ≠ "open").length : ℚ) * 100 →
        update_and_get_bias history = -5)) := by
  simp only [update_and_get_bias]
  constructor
  · intro h
    rw [if_pos h]
  · intro h
    rw [if_neg (by omega)]
    refine ⟨fun hlt => ?_, fun hband => ?_, fun hgt => ?_⟩
    · rw [if_pos hlt]
    · rw [if_neg (by exact not_lt.mpr hband.1), if_neg (by exact not_lt.mpr hband.2)]
    · rw [if_neg (by exact not_lt.mpr (le_trans (by norm_num) (le_of_lt hgt))), if_pos hgt]

/-- C2 witness: 2 wins of 5 resolved (40%) yields bias +10; and at the
boundaries, exactly 45% and exactly 65% both yield bias 0. -/
theorem c2_bias_witness :
    3 ≤ (hist5.filter fun t => t.status ≠ "open").length ∧
    update_and_get_bias hist5 = 10 ∧
    update_and_get_bias hist20 = 0 ∧
    update_and_get_bias hist20hi = 0 :=
  ⟨by decide,
   ((c2_bias_bands hist5).2 (by decide)).1 (by decide!),
   ((c2_bias_bands hist20).2 (by decide)).2.1 (by decide!),
   ((c2_bias_bands hist20hi).2 (by decide)).2.1 (by decide!)⟩

/-! ### C4 — volume-intensity bonus -/

/-- C4 counterexample: two scenario-B inputs that differ only in the current
bar's volume (trailing-average versus three times it) receive the same
score, so no volume-intensity bonus is awarded. -/
theorem c4_counterexample :
    calculate_confluence_score dfB_hi spyCloseB
        = calculate_confluence_score dfB_lo spyCloseB ∧
    calculate_confluence_score dfB_lo spyCloseB = 70 := by decide!

/-- C4 amended: the V9.1 scorer has no volume term — the score is invariant
under any change of the volume column — and on scenario B it awards exactly
the trend and relative-strength bonuses (10 + 40 + 20 = 70). -/
theorem c4_amended_no_volume_bonus :
    (∀ (df : ScoreDF) (spyClose : Series) (v : Series),
        calculate_confluence_score { df with volume := v } spyClose
          = calculate_confluence_score df spyClose) ∧
    calculate_confluence_score dfB_lo spyCloseB = 70 :=
  ⟨fun _ _ _ => rfl, by decide!⟩

/-! ### C6 — ledger eviction -/

/-- C6: whenever the record step appends an entry (non-empty signal list, no
open duplicate for the top pick's ticker), the stored history is a suffix of
the appended sequence — the most recently appended entries, oldest evicted
first — of length `min (|memory| + 1) 50`, hence never longer than 50, and
exactly 50 as soon as the append passes 50. -/
theorem c6_eviction (memory : List LedgerEntry) (top : Signal) (rest : List Signal)
    (today : String)
    (hdup : memory.any (fun t => t.ticker = top.ticker && t.status = "open") = false) :
    (record_new_trades memory (top :: rest) today).length ≤ 50 ∧
    (record_new_trades memory (top :: rest) today).length
        = min (memory.length + 1) 50 ∧
    record_new_trades memory (top :: rest) today
        <:+ memory ++ [⟨top.ticker, top.currentPrice, top.goal, top.stopLoss, today, "open"⟩] := by
  simp only [record_new_trades, hdup, Bool.false_eq_true, if_false, takeLast]
  refine ⟨?_, ?_, List.drop_suffix _ _⟩
  · rw [List.length_drop, List.length_append]
    simp only [List.length_singleton]
    omega
  · rw [List.length_drop, List.length_append]
    simp only [List.length_singleton]
    omega

/-- C6 witness: appending the 53rd entry to a 52-entry ledger leaves exactly
the 50 most recent entries. -/
theorem c6_eviction_witness :
    memory52.any (fun t => t.ticker = sigB.ticker && t.status = "open") = false ∧
    (record_new_trades memory52 [sigB] "d").length ≤ 50 ∧
    (record_new_trades memory52 [sigB] "d").length = min (52 + 1) 50 ∧
    record_new_trades memory52 [sigB] "d"
        <:+ memory52 ++ [⟨sigB.ticker, sigB.currentPrice, sigB.goal, sigB.stopLoss, "d", "open"⟩] :=
  ⟨by decide,
   (c6_eviction memory52 sigB [] "d" (by decide)).1,
   (c6_eviction memory52 sigB [] "d" (by decide)).2.1,
   (c6_eviction memory52 sigB [] "d" (by decide)).2.2⟩

/-! ### C5 — market-health hard gate -/

/-- C5: whenever a completed cycle's snapshot reports an unhealthy market,
its emitted signal list is empty regardless of any instrument's data — the
market-health boolean is a conjunct of every per-ticker admission gate. -/
theorem c5_market_health_gate {inp : ScanInput} {now : String} {out : ScanOutput}
    (hrun : run_web_scan inp now = .ok out) (hm : out.marketHealthy = false) :
    out.signals = [] := by
  obtain ⟨mh, rfl⟩ := run_web_scan_ok hrun
  have hmh : mh = false := hm
  subst hmh
  show (collectSignals false _ _ _).mergeSort scoreLe = []
  rw [collectSignals_false]
  exact List.mergeSort_nil

/-- The snapshot of the `inpFlat` cycle. -/
def outFlat : ScanOutput := ⟨false, [], "T"⟩

/-- C5 witness: under the flat benchmark the market is unhealthy and the
cycle emits nothing, although its ticker would pass every other gate. -/
theorem c5_witness :
    run_web_scan inpFlat "T" = .ok outFlat ∧
    outFlat.marketHealthy = false ∧
    outFlat.signals = [] := by
  have hrun : run_web_scan inpFlat "T" = .ok outFlat := by decide!
  exact ⟨hrun, rfl, c5_market_health_gate hrun rfl⟩

/-! ### C8 — determinism / idempotence -/

/-- Two runs of the same frozen cycle differ only in the clock stamp. -/
theorem run_web_scan_clock (inp : ScanInput) (n1 n2 : String) :
    run_web_scan inp n1
      = (run_web_scan inp n2).map fun o => { o with lastUpdated := n1 } := by
  simp only [run_web_scan]
  split
  · rfl
  · split
    · rfl
    · rfl

/-- C8: the scorer is a pure function of its two series arguments, and two
completed runs on the same frozen input and ledger state produce the same
ranked signal list and market-health flag — only `lastUpdated` may differ. -/
theorem c8_determinism {inp : ScanInput} {n1 n2 : String} {o1 o2 : ScanOutput}
    (h1 : run_web_scan inp n1 = .ok o1) (h2 : run_web_scan inp n2 = .ok o2) :
    (∀ (df df' : ScoreDF) (sc sc' : Series), df = df' → sc = sc' →
      calculate_confluence_score df sc = calculate_confluence_score df' sc') ∧
    o1.signals = o2.signals ∧ o1.marketHealthy = o2.marketHealthy := by
  have hmap := run_web_scan_clock inp n1 n2
  rw [h1, h2] at hmap
  simp only [Except.map] at hmap
  obtain rfl := Except.ok.inj hmap
  exact ⟨fun df df' sc sc' hdf hsc => by rw [hdf, hsc], rfl, rfl⟩

/-- The `inpFlat` snapshot at clock "a". -/
def outFa : ScanOutput := ⟨false, [], "a"⟩

/-- The `inpFlat` snapshot at clock "b". -/
def outFb : ScanOutput := ⟨false, [], "b"⟩

/-- C8 witness: the same frozen cycle run at two clock readings yields the
same signals and market-health flag. -/
theorem c8_witness :
    run_web_scan inpFlat "a" = .ok outFa ∧
    run_web_scan inpFlat "b" = .ok outFb ∧
    outFa.signals = outFb.signals ∧ outFa.marketHealthy = outFb.marketHealthy := by
  have h1 : run_web_scan inpFlat "a" = .ok outFa := by decide!
  have h2 : run_web_scan inpFlat "b" = .ok outFb := by decide!
  exact ⟨h1, h2, (c8_determinism h1 h2).2.1, (c8_determinism h1 h2).2.2⟩

/-! ### C9 — skipping failed or short fetches -/

/-- C9: a ticker whose fetch raises, or whose series is empty or shorter
than 200 bars, is never evaluated to a signal, and deleting it from the
universe changes nothing — the cycle proceeds over the remaining tickers
and no exception escapes. -/
theorem c9_skip_bad_ticker {f : Except Unit RawDF}
    (hbad : f = .error () ∨ ∃ d : RawDF, f = .ok d ∧ (d.isEmpty = true ∨ d.length < 200))
    (led : Option (List LedgerEntry)) (spy : RawDF)
    (pre post : List (String × Except Unit RawDF)) (t : String) (now : String) :
    (∀ (mh : Bool) (thr : Int) (spyC : Series), evalTicker mh thr spyC t f = none) ∧
    run_web_scan ⟨led, spy, pre ++ (t, f) :: post⟩ now
      = run_web_scan ⟨led, spy, pre ++ post⟩ now := by
  have hnone : ∀ (mh : Bool) (thr : Int) (spyC : Series),
      evalTicker mh thr spyC t f = none := by
    intro mh thr spyC
    rcases hbad with rfl | ⟨d, rfl, hd⟩
    · rfl
    · simp only [evalTicker]
      rw [if_pos]
      rcases hd with hd | hd
      · simp [hd]
      · simp [hd]
  refine ⟨hnone, ?_⟩
  simp only [run_web_scan]
  split
  · rfl
  · split
    · next lastSpy smaLast h1 h2 =>
      have := collectSignals_middle_none
        (hnone (vgt lastSpy smaLast) (BASE_STRICTNESS + update_and_get_bias_file led)
          (spy.map (·.close))) pre post
      rw [this]
    · rfl

/-- C9 witness: a raising fetch produces no signal and its removal leaves
the cycle unchanged. -/
theorem c9_witness :
    evalTicker true 80 [] "X" (.error ()) = none ∧
    run_web_scan ⟨none, spyRise, [("X", .error ())]⟩ "T"
      = run_web_scan ⟨none, spyRise, []⟩ "T" :=
  ⟨(c9_skip_bad_ticker (Or.inl rfl) none spyRise [] [] "X" "T").1 true 80 [],
   (c9_skip_bad_ticker (Or.inl rfl) none spyRise [] [] "X" "T").2⟩

/-! ### C10 — output admission invariant -/

/-- C10: every signal of a completed cycle was admitted with an
evaluation-time RSI strictly between 45 and 65 (the emitted `rsi` field is
that value rounded to two decimals) and a score at least the cycle's
effective threshold `BASE_STRICTNESS + bias`. -/
theorem c10_admission_invariant {inp : ScanInput} {now : String} {out : ScanOutput}
    (hrun : run_web_scan inp now = .ok out) {s : Signal} (hs : s ∈ out.signals) :
    (∃ r : ℚ, 45 < r ∧ r < 65 ∧ s.rsi = some (round2 r)) ∧
    BASE_STRICTNESS + update_and_get_bias_file inp.ledger ≤ s.score := by
  obtain ⟨mh, rfl⟩ := run_web_scan_ok hrun
  have hs' : s ∈ (collectSignals mh (BASE_STRICTNESS + update_and_get_bias_file inp.ledger)
      (inp.spy.map (·.close)) inp.tickers).mergeSort scoreLe := hs
  rw [List.mem_mergeSort] at hs'
  obtain ⟨t, f, htf, hev⟩ := mem_collectSignals hs'
  obtain ⟨data, hfd, hlen, hmh, close, rsiv, hclose, hrsi, h45, h65, hprox, hthr,
    hticker, hscore, hcp, hba, hrsifield⟩ := evalTicker_eq_some hev
  obtain ⟨r, hr, h45q⟩ := vgt_some_right h45
  subst hr
  refine ⟨⟨r, h45q, of_decide_eq_true h65, ?_⟩, hthr⟩
  rw [hrsifield]
  rfl

/-- C10 witness: the emitted `inpB` signal carries the rounded RSI of an
evaluation-time value in `(45, 65)` and a score meeting the threshold 80. -/
theorem c10_witness :
    run_web_scan inpB "T" = .ok outB ∧
    sigB ∈ outB.signals ∧
    (∃ r : ℚ, 45 < r ∧ r < 65 ∧ sigB.rsi = some (round2 r)) ∧
    BASE_STRICTNESS + update_and_get_bias_file inpB.ledger ≤ sigB.score := by
  have hrun : run_web_scan inpB "T" = .ok outB := by decide!
  have hs : sigB ∈ outB.signals := List.mem_singleton.mpr rfl
  exact ⟨hrun, hs, (c10_admission_invariant hrun hs).1, (c10_admission_invariant hrun hs).2⟩

/-! ### C3 — pivot proximity gate -/

/-- C3 counterexample: `dataA` differs from `dataB` only in one intraday
high (bar 215 spikes to 215), leaving its last close 212 within 2% of the
20-bar high 215 — yet the cycle emits nothing for it, while the identical
instrument without the spike is emitted.  The pipeline's proximity
percentage is therefore not in the claimed 2%-4% band. -/
theorem c3_counterexample :
    run_web_scan inpA "T" = .ok outA ∧
    (dataA.map (·.close)).getLast? = some (some 212) ∧
    seriesMax (takeLast 20 (dataA.map (·.high))) = some 215 ∧
    vge (some 212) (vmulc (some 215) (98 / 100)) = true ∧
    run_web_scan inpB "T" = .ok outB := by
  refine ⟨by decide!, by decide!, by decide!, by decide!, by decide!⟩

/-- C3 amended: the proximity percentage is 1%, not 2%-4%: a candidate is
emitted only if its evaluation-time close is at least `0.99` times the
trailing 20-bar high (`close >= recent_high * 0.99`); every instrument
farther than 1% below its 20-bar high is rejected regardless of score. -/
theorem c3_amended_pivot_proximity {inp : ScanInput} {now : String} {out : ScanOutput}
    (hrun : run_web_scan inp now = .ok out) {s : Signal} (hs : s ∈ out.signals) :
    ∃ (data : RawDF) (close : Val),
      (s.ticker, Except.ok data) ∈ inp.tickers ∧
      (data.map (·.close)).getLast? = some close ∧
      vge close (vmulc (seriesMax (takeLast 20 (data.map (·.high)))) (99 / 100)) = true ∧
      s.currentPrice = vround2 close ∧
      s.buyAt = vround2 (seriesMax (takeLast 20 (data.map (·.high)))) := by
  obtain ⟨mh, rfl⟩ := run_web_scan_ok hrun
  have hs' : s ∈ (collectSignals mh (BASE_STRICTNESS + update_and_get_bias_file inp.ledger)
      (inp.spy.map (·.close)) inp.tickers).mergeSort scoreLe := hs
  rw [List.mem_mergeSort] at hs'
  obtain ⟨t, f, htf, hev⟩ := mem_collectSignals hs'
  obtain ⟨data, hfd, hlen, hmh, close, rsiv, hclose, hrsi, h45, h65, hprox, hthr,
    hticker, hscore, hcp, hba, hrsifield⟩ := evalTicker_eq_some hev
  subst hfd
  refine ⟨data, close, ?_, hclose, hprox, hcp, hba⟩
  rw [hticker]
  exact htf

/-- C3 amended witness: the emitted `inpB` signal's close sits within 1% of
its 20-bar high. -/
theorem c3_amended_witness :
    run_web_scan inpB "T" = .ok outB ∧
    sigB ∈ outB.signals ∧
    ∃ (data : RawDF) (close : Val),
      (sigB.ticker, Except.ok data) ∈ inpB.tickers ∧
      (data.map (·.close)).getLast? = some close ∧
      vge close (vmulc (seriesMax (takeLast 20 (data.map (·.high)))) (99 / 100)) = true ∧
      sigB.currentPrice = vround2 close ∧
      sigB.buyAt = vround2 (seriesMax (takeLast 20 (data.map (·.high)))) := by
  have hrun : run_web_scan inpB "T" = .ok outB := by decide!
  have hs : sigB ∈ outB.signals := List.mem_singleton.mpr rfl
  exact ⟨hrun, hs, c3_amended_pivot_proximity hrun hs⟩

/-! ### C7 — stable descending ranking -/

/-- `scoreLe` is transitive. -/
theorem scoreLe_trans : ∀ a b c : Signal, scoreLe a b → scoreLe b c → scoreLe a c := by
  intro a b c hab hbc
  simp only [scoreLe, decide_eq_true_eq] at *
  exact le_trans hbc hab

/-- `scoreLe` is total. -/
theorem scoreLe_total : ∀ a b : Signal, scoreLe a b || scoreLe b a := by
  intro a b
  simp only [scoreLe]
  rcases le_total a.score b.score with h | h <;> simp [h]

/-- C7: a completed cycle's signal list is sorted by score in descending
order, and for every score value the signals carrying it appear exactly as
they did in the per-ticker encounter order (stability of the sort). -/
theorem c7_ranking {inp : ScanInput} {now : String} {out : ScanOutput}
    (hrun : run_web_scan inp now = .ok out) :
    List.Pairwise (fun a b : Signal => b.score ≤ a.score) out.signals ∧
    ∀ q : Int,
      out.signals.filter (fun c => c.score = q)
        = (collectSignals out.marketHealthy
            (BASE_STRICTNESS + update_and_get_bias_file inp.ledger)
            (inp.spy.map (·.close)) inp.tickers).filter (fun c => c.score = q) := by
  obtain ⟨mh, rfl⟩ := run_web_scan_ok hrun
  constructor
  · refine List.Pairwise.imp ?_
      (List.sorted_mergeSort scoreLe_trans scoreLe_total
        (collectSignals mh (BASE_STRICTNESS + update_and_get_bias_file inp.ledger)
          (inp.spy.map (·.close)) inp.tickers))
    intro a b hb
    exact of_decide_eq_true hb
  · intro q
    show ((collectSignals mh (BASE_STRICTNESS + update_and_get_bias_file inp.ledger)
        (inp.spy.map (·.close)) inp.tickers).mergeSort scoreLe).filter
          (fun c => c.score = q)
      = (collectSignals mh (BASE_STRICTNESS + update_and_get_bias_file inp.ledger)
          (inp.spy.map (·.close)) inp.tickers).filter (fun c => c.score = q)
    set raw := collectSignals mh (BASE_STRICTNESS + update_and_get_bias_file inp.ledger)
      (inp.spy.map (·.close)) inp.tickers with hraw
    have hpw : (raw.filter fun c => c.score = q).Pairwise
        (fun a b => scoreLe a b = true) := by
      refine List.pairwise_of_forall_mem_list ?_
      intro a ha b hb
      have haq : a.score = q := by simpa using (List.mem_filter.mp ha).2
      have hbq : b.score = q := by simpa using (List.mem_filter.mp hb).2
      simp [scoreLe, haq, hbq]
    have hsub : List.Sublist (raw.filter fun c => c.score = q) (raw.mergeSort scoreLe) :=
      List.sublist_mergeSort scoreLe_trans scoreLe_total hpw (List.filter_sublist _)
    have hfsub : List.Sublist (raw.filter fun c => c.score = q)
        ((raw.mergeSort scoreLe).filter fun c => c.score = q) := by
      have hff := hsub.filter (fun c => decide (c.score = q))
      have hself : ((raw.filter fun c => c.score = q).filter fun c => c.score = q)
          = raw.filter fun c => c.score = q :=
        List.filter_eq_self.mpr fun a ha => (List.mem_filter.mp ha).2
      rwa [hself] at hff
    have hlen : ((raw.mergeSort scoreLe).filter fun c => c.score = q).length
        = (raw.filter fun c => c.score = q).length :=
      ((List.mergeSort_perm raw scoreLe).filter _).length_eq
    exact (List.Sublist.eq_of_length hfsub hlen.symm).symm

/-- C7 witness: two tickers tying at score 80 appear in their encounter
order in the emitted ranking. -/
theorem c7_witness :
    run_web_scan inpB2 "T" = .ok outB2 ∧
    List.Pairwise (fun a b : Signal => b.score ≤ a.score) outB2.signals ∧
    outB2.signals.filter (fun c => c.score = 80)
      = (collectSignals outB2.marketHealthy
          (BASE_STRICTNESS + update_and_get_bias_file inpB2.ledger)
          (inpB2.spy.map (·.close)) inpB2.tickers).filter (fun c => c.score = 80) := by
  have hrun : run_web_scan inpB2 "T" = .ok outB2 := by decide!
  exact ⟨hrun, (c7_ranking hrun).1, (c7_ranking hrun).2 80⟩

end SwingScan
